import Mathlib

/-!
# Verification of the grounded-cv resilient request/streaming layer

Shallow embedding of the retry/backoff utility
(`backend/app/utils/retry.py`) and the agent call-orchestration layer
(`backend/app/agents/base.py`), together with theorems settling the
frozen behavioural claims about them.

Modelling conventions:
* Python `float` delay/cost arithmetic is embedded over `ℚ`; the draw of
  `random.random()` (a value in `[0, 1)`) is passed in explicitly.
* Exceptions are an abstract type `ε`; the `isinstance` check against the
  `retryable_exceptions` tuple becomes a Boolean classifier `ε → Bool`.
* Async functions become pure functions from the per-attempt behaviour of
  the remote side to a result together with observable effect counters
  (call counts, slept delays, logged warnings).
-/

namespace GroundedCV

/-! ## `RetryConfig` (`backend/app/utils/retry.py`, lines 18-62) -/

/-- Embedding of the `RetryConfig` dataclass. -/
structure RetryConfig where
  max_attempts : ℕ
  base_delay : ℚ
  max_delay : ℚ
  exponential_base : ℚ
  jitter : Bool
  deriving Repr, DecidableEq

/-- The checks performed by `RetryConfig.__post_init__`: a configuration
that violates any of them is rejected at construction time. -/
def RetryConfig.Valid (c : RetryConfig) : Prop :=
  1 ≤ c.max_attempts ∧ 0 ≤ c.base_delay ∧ 0 ≤ c.max_delay ∧ 1 ≤ c.exponential_base

instance (c : RetryConfig) : Decidable c.Valid := by
  unfold RetryConfig.Valid; infer_instance

/-- Embedding of `RetryConfig.calculate_delay`.  `rand` is the value
returned by `random.random()` for this call (in `[0, 1)`); it is only
consulted when `jitter` is set. -/
def RetryConfig.calculate_delay (c : RetryConfig) (rand : ℚ) (attempt : ℕ) : ℚ :=
  let delay := c.base_delay * c.exponential_base ^ attempt
  let delay := if c.jitter then delay * (1/2 + rand) else delay
  min delay c.max_delay

/-! ## Claim C5: delay is capped by `max_delay`, and is the exact
`min (base * expBase ^ n) max_delay` when jitter is off. -/

/-- C5: for every validly constructed backoff configuration, every attempt
index `n`, and every jitter draw `rand ∈ [0, 1)` (so the jitter factor
`0.5 + rand` lies in `[0.5, 1.5)`), `calculate_delay` is at most
`max_delay`; and when `jitter` is off it equals
`min (base_delay * exponential_base ^ n) max_delay` exactly,
independently of the draw. -/
theorem calculate_delay_capped_and_deterministic
    (c : RetryConfig) (rand : ℚ) (n : ℕ)
    (hc : c.Valid) (h0 : 0 ≤ rand) (h1 : rand < 1) :
    c.calculate_delay rand n ≤ c.max_delay ∧
      (c.jitter = false →
        c.calculate_delay rand n =
          min (c.base_delay * c.exponential_base ^ n) c.max_delay) := by
  constructor
  · exact min_le_right _ _
  · intro hj
    simp [RetryConfig.calculate_delay, hj]

/-- Witness for C5 at a concrete configuration and draw. -/
theorem calculate_delay_capped_and_deterministic_witness :
    (RetryConfig.mk 3 1 30 2 false).calculate_delay (1/4) 2 ≤ 30 ∧
      ((RetryConfig.mk 3 1 30 2 false).jitter = false →
        (RetryConfig.mk 3 1 30 2 false).calculate_delay (1/4) 2 =
          min ((1 : ℚ) * 2 ^ 2) 30) :=
  calculate_delay_capped_and_deterministic (RetryConfig.mk 3 1 30 2 false) (1/4) 2
    (by constructor <;> norm_num [RetryConfig.Valid]) (by norm_num) (by norm_num)

/-! ## `retry_on_transient_error` (`backend/app/utils/retry.py`, lines 65-121)

The wrapped coroutine's behaviour is a function `op : ℕ → Except ε α`
giving the outcome of its `i`-th invocation (0-indexed).  The wrapper is
embedded as a fuel recursion mirroring the `for attempt in
range(config.max_attempts)` loop; the run records the final outcome, how
many times `op` was invoked, and the delays slept between attempts. -/

/-- How a wrapped call terminates: a returned value, a propagated /
re-raised exception, or the defensive `RuntimeError("Unexpected state in
retry logic")` at the end of the loop. -/
inductive FinalResult (ε α : Type) where
  | ok (a : α)
  | raised (e : ε)
  | runtimeError
  deriving Repr, DecidableEq

/-- Observable outcome of one run of the retry wrapper. -/
structure RetryRun (ε α : Type) where
  result : FinalResult ε α
  calls : ℕ
  delays : List ℚ
  deriving Repr, DecidableEq

/-- The loop body of the `wrapper` closure in `retry_on_transient_error`:
`attempt` is the current 0-indexed attempt, `fuel` the number of loop
iterations left (`max_attempts - attempt`), `last` the captured
`last_exception`, `calls` and `delays` the effect accumulators. -/
def retryGo (retryable : ε → Bool) (c : RetryConfig) (rand : ℕ → ℚ)
    (op : ℕ → Except ε α) :
    ℕ → ℕ → Option ε → ℕ → List ℚ → RetryRun ε α
  | _, 0, some e, calls, delays => ⟨.raised e, calls, delays⟩
  | _, 0, none, calls, delays => ⟨.runtimeError, calls, delays⟩
  | attempt, f + 1, last, calls, delays =>
    match op attempt with
    | .ok a => ⟨.ok a, calls + 1, delays⟩
    | .error e =>
      if retryable e then
        if 0 < f then
          retryGo retryable c rand op (attempt + 1) f (some e) (calls + 1)
            (delays ++ [c.calculate_delay (rand attempt) attempt])
        else
          retryGo retryable c rand op (attempt + 1) f (some e) (calls + 1) delays
      else ⟨.raised e, calls + 1, delays⟩

/-- Embedding of a call to a coroutine decorated by
`retry_on_transient_error retryable c`.  `rand i` is the `random.random()`
draw used for the delay after attempt `i`. -/
def retry_on_transient_error (retryable : ε → Bool) (c : RetryConfig)
    (rand : ℕ → ℚ) (op : ℕ → Except ε α) : RetryRun ε α :=
  retryGo retryable c rand op 0 c.max_attempts none 0 []

/-- If every remaining attempt fails retryably, the loop consumes all its
fuel and re-raises the exception captured on the final attempt. -/
lemma retryGo_all_fail (retryable : ε → Bool) (c : RetryConfig) (rand : ℕ → ℚ)
    (op : ℕ → Except ε α) (e : ℕ → ε)
    (hop : ∀ i, op i = .error (e i)) (hret : ∀ i, retryable (e i) = true) :
    ∀ f attempt last calls delays, 1 ≤ f →
      (retryGo retryable c rand op attempt f last calls delays).result
          = .raised (e (attempt + f - 1)) ∧
        (retryGo retryable c rand op attempt f last calls delays).calls = calls + f := by
  intro f
  induction f with
  | zero => omega
  | succ f ih =>
    intro attempt last calls delays _
    rcases Nat.eq_zero_or_pos f with hf | hf
    · subst hf
      simp [retryGo, hop attempt, hret attempt]
    · have h := ih (attempt + 1) (some (e attempt)) (calls + 1)
        (delays ++ [c.calculate_delay (rand attempt) attempt]) hf
      have harg : attempt + 1 + f - 1 = attempt + (f + 1) - 1 := by omega
      rw [harg] at h
      simp only [retryGo, hop attempt, hret attempt, if_pos hf, if_true]
      exact ⟨h.1, by rw [h.2]; omega⟩

/-- If the first `k` remaining attempts fail retryably and the next one
succeeds, the loop returns that success after exactly `k + 1` further
invocations. -/
lemma retryGo_success_after (retryable : ε → Bool) (c : RetryConfig) (rand : ℕ → ℚ)
    (op : ℕ → Except ε α) (e : ℕ → ε) (hret : ∀ i, retryable (e i) = true) :
    ∀ k attempt f last calls delays (a : α), k < f →
      (∀ i, i < k → op (attempt + i) = .error (e (attempt + i))) →
      op (attempt + k) = .ok a →
      (retryGo retryable c rand op attempt f last calls delays).result = .ok a ∧
        (retryGo retryable c rand op attempt f last calls delays).calls
          = calls + k + 1 := by
  intro k
  induction k with
  | zero =>
    intro attempt f last calls delays a hk _ hok
    obtain ⟨f, rfl⟩ : ∃ fp, f = fp + 1 := ⟨f - 1, by omega⟩
    simp only [Nat.add_zero] at hok
    simp [retryGo, hok]
  | succ k ih =>
    intro attempt f last calls delays a hk hfail hok
    obtain ⟨f, rfl⟩ : ∃ fp, f = fp + 1 := ⟨f - 1, by omega⟩
    have h0 : op attempt = .error (e attempt) := by
      have := hfail 0 (Nat.succ_pos k)
      simpa using this
    have hf : 0 < f := by omega
    have h := ih (attempt + 1) f (some (e attempt)) (calls + 1)
      (delays ++ [c.calculate_delay (rand attempt) attempt]) a (by omega)
      (fun i hi => by
        have hidx : attempt + 1 + i = attempt + (i + 1) := by omega
        rw [hidx]
        exact hfail (i + 1) (by omega))
      (by
        have hidx : attempt + 1 + k = attempt + (k + 1) := by omega
        rw [hidx]
        exact hok)
    simp only [retryGo, h0, hret attempt, if_pos hf, if_true]
    refine ⟨h.1, ?_⟩
    rw [h.2]
    omega

/-! ## Claim C3: retryable failure on every attempt means exactly
`max_attempts` invocations and the last exception re-raised unchanged;
a success returns immediately. -/

/-- C3: for a coroutine wrapped by `retry_on_transient_error` with a valid
configuration (`max_attempts = N ≥ 1`): (a) if every attempt raises a
retryable exception, the coroutine is invoked exactly `N` times and the
exception finally raised is exactly the one captured on the last attempt
(`e (N - 1)`), not a synthesized one; (b) if the first `k` attempts raise
retryable exceptions and attempt `k` succeeds with `a`, the wrapper
returns `a` and the coroutine is invoked exactly `k + 1` times. -/
theorem retry_exhaustion_and_immediate_success (retryable : ε → Bool)
    (c : RetryConfig) (rand : ℕ → ℚ) (op : ℕ → Except ε α) (e : ℕ → ε)
    (hc : c.Valid) (hret : ∀ i, retryable (e i) = true) :
    ((∀ i, op i = .error (e i)) →
      (retry_on_transient_error retryable c rand op).result
          = .raised (e (c.max_attempts - 1)) ∧
        (retry_on_transient_error retryable c rand op).calls = c.max_attempts) ∧
      (∀ k a, k < c.max_attempts → (∀ i, i < k → op i = .error (e i)) →
        op k = .ok a →
        (retry_on_transient_error retryable c rand op).result = .ok a ∧
          (retry_on_transient_error retryable c rand op).calls = k + 1) := by
  constructor
  · intro hop
    have h := retryGo_all_fail retryable c rand op e hop hret
      c.max_attempts 0 none 0 [] hc.1
    simpa [retry_on_transient_error] using h
  · intro k a hk hfail hok
    have h := retryGo_success_after retryable c rand op e hret
      k 0 c.max_attempts none 0 [] a hk (by simpa using hfail) (by simpa using hok)
    simpa [retry_on_transient_error] using h

/-- Witness for C3: with `max_attempts = 3` and an always-retryably-failing
operation, 3 invocations happen and the third exception is re-raised. -/
theorem retry_exhaustion_and_immediate_success_witness :
    ((∀ i, (fun i => (.error (i + 10) : Except ℕ ℕ)) i = .error (i + 10)) →
      (retry_on_transient_error (fun _ => true) (RetryConfig.mk 3 1 30 2 false)
          (fun _ => 0) (fun i => (.error (i + 10) : Except ℕ ℕ))).result
            = .raised (2 + 10) ∧
        (retry_on_transient_error (fun _ => true) (RetryConfig.mk 3 1 30 2 false)
          (fun _ => 0) (fun i => (.error (i + 10) : Except ℕ ℕ))).calls = 3) ∧
      (∀ k a, k < 3 → (∀ i, i < k → (.error (i + 10) : Except ℕ ℕ) = .error (i + 10)) →
        (.error (k + 10) : Except ℕ ℕ) = .ok a →
        (retry_on_transient_error (fun _ => true) (RetryConfig.mk 3 1 30 2 false)
            (fun _ => 0) (fun i => (.error (i + 10) : Except ℕ ℕ))).result = .ok a ∧
          (retry_on_transient_error (fun _ => true) (RetryConfig.mk 3 1 30 2 false)
            (fun _ => 0) (fun i => (.error (i + 10) : Except ℕ ℕ))).calls = k + 1) :=
  retry_exhaustion_and_immediate_success (fun _ => true)
    (RetryConfig.mk 3 1 30 2 false) (fun _ => 0)
    (fun i => (.error (i + 10) : Except ℕ ℕ)) (fun i => i + 10)
    (by refine ⟨?_, ?_, ?_, ?_⟩ <;> norm_num [RetryConfig.Valid])
    (fun _ => rfl)

/-! ## Claim C4: a non-retryable exception propagates at once, with exactly
one invocation and no backoff delay. -/

/-- C4: if the first invocation of the wrapped coroutine raises an
exception outside the retryable set, the wrapper re-raises exactly that
exception, the coroutine is invoked exactly once (no remaining attempts
are consumed), and no backoff delay is slept. -/
theorem retry_nonretryable_propagates_immediately (retryable : ε → Bool)
    (c : RetryConfig) (rand : ℕ → ℚ) (op : ℕ → Except ε α) (e : ε)
    (hc : c.Valid) (hnr : retryable e = false) (h0 : op 0 = .error e) :
    retry_on_transient_error retryable c rand op = ⟨.raised e, 1, []⟩ := by
  obtain ⟨m, hm⟩ : ∃ m, c.max_attempts = m + 1 := ⟨c.max_attempts - 1, by
    have := hc.1
    omega⟩
  simp [retry_on_transient_error, hm, retryGo, h0, hnr]

/-- Witness for C4 at a concrete non-retryable failure. -/
theorem retry_nonretryable_propagates_immediately_witness :
    retry_on_transient_error (fun e => decide (e = 0)) (RetryConfig.mk 3 1 30 2 true)
        (fun _ => 0) (fun _ => (.error 7 : Except ℕ ℕ))
      = ⟨.raised 7, 1, []⟩ :=
  retry_nonretryable_propagates_immediately (fun e => decide (e = 0))
    (RetryConfig.mk 3 1 30 2 true) (fun _ => 0) (fun _ => (.error 7 : Except ℕ ℕ)) 7
    (by refine ⟨?_, ?_, ?_, ?_⟩ <;> norm_num [RetryConfig.Valid])
    (by decide) rfl

/-! ## `retry_async_generator` (`backend/app/utils/retry.py`, lines 124-203)

Each invocation of the factory produces a generator whose behaviour is a
list of items it yields followed by how it ends: normal completion or an
exception raised after those items.  `factory k` is the behaviour of the
generator created by the `k`-th factory invocation.  The wrapper's run
records every item delivered to the consumer (in order), the terminal
outcome, the number of factory invocations, and the delays slept. -/

/-- How one generator created by the factory ends, after yielding its
items: normal completion, or an exception. -/
inductive GenEnd (ε : Type) where
  | done
  | raise (e : ε)
  deriving Repr, DecidableEq

/-- Observable outcome of one run of the streaming retry wrapper:
`yielded` are the items delivered to the consumer across all attempts,
in delivery order. -/
structure StreamRun (ε α : Type) where
  yielded : List α
  result : Except ε Unit
  factoryCalls : ℕ
  delays : List ℚ
  deriving Repr

/-- The `for attempt in range(config.max_attempts)` loop of
`retry_async_generator`.  The `first_yielded` flag of the source is the
test `items ≠ []`: the flag is set exactly when the current generator
yielded at least one item before raising.  A retryable exception with the
flag set, or any non-retryable exception, is re-raised at once; a
retryable exception with the flag clear is captured and, if attempts
remain, retried after a backoff delay with a freshly created generator. -/
def streamGo (retryable : ε → Bool) (c : RetryConfig) (rand : ℕ → ℚ)
    (factory : ℕ → List α × GenEnd ε) :
    ℕ → ℕ → Option ε → List α → List ℚ → StreamRun ε α
  | attempt, 0, some e, acc, delays => ⟨acc, .error e, attempt, delays⟩
  | attempt, 0, none, acc, delays => ⟨acc, .ok (), attempt, delays⟩
  | attempt, f + 1, last, acc, delays =>
    match factory attempt with
    | (items, .done) => ⟨acc ++ items, .ok (), attempt + 1, delays⟩
    | (items, .raise e) =>
      if retryable e then
        if items.isEmpty then
          if 0 < f then
            streamGo retryable c rand factory (attempt + 1) f (some e) acc
              (delays ++ [c.calculate_delay (rand attempt) attempt])
          else
            streamGo retryable c rand factory (attempt + 1) f (some e) acc delays
        else
          ⟨acc ++ items, .error e, attempt + 1, delays⟩
      else ⟨acc ++ items, .error e, attempt + 1, delays⟩

/-- Embedding of iterating `retry_async_generator factory retryable c` to
completion.  `rand i` is the `random.random()` draw for the delay after
attempt `i`. -/
def retry_async_generator (retryable : ε → Bool) (c : RetryConfig)
    (rand : ℕ → ℚ) (factory : ℕ → List α × GenEnd ε) : StreamRun ε α :=
  streamGo retryable c rand factory 0 c.max_attempts none [] []

/-- Stepping over a prefix of attempts that each fail retryably having
yielded nothing: the loop simply advances to the next attempt. -/
lemma streamGo_skip_empty_failures (retryable : ε → Bool) (c : RetryConfig)
    (rand : ℕ → ℚ) (factory : ℕ → List α × GenEnd ε) (e : ℕ → ε)
    (hret : ∀ i, retryable (e i) = true) :
    ∀ k attempt f last acc delays, k < f →
      (∀ i, i < k → factory (attempt + i) = ([], .raise (e (attempt + i)))) →
      ∃ last' delays',
        streamGo retryable c rand factory attempt f last acc delays
          = streamGo retryable c rand factory (attempt + k) (f - k) last' acc delays' := by
  intro k
  induction k with
  | zero =>
    intro attempt f last acc delays _ _
    exact ⟨last, delays, by simp⟩
  | succ k ih =>
    intro attempt f last acc delays hk hfail
    obtain ⟨f, rfl⟩ : ∃ fp, f = fp + 1 := ⟨f - 1, by omega⟩
    have h0 : factory attempt = ([], .raise (e attempt)) := by
      have := hfail 0 (Nat.succ_pos k)
      simpa using this
    have hf : 0 < f := by omega
    have step : streamGo retryable c rand factory attempt (f + 1) last acc delays
        = streamGo retryable c rand factory (attempt + 1) f (some (e attempt)) acc
            (delays ++ [c.calculate_delay (rand attempt) attempt]) := by
      simp only [streamGo, h0, hret attempt, if_pos hf, if_true, List.isEmpty_nil]
    obtain ⟨last', delays', hrec⟩ := ih (attempt + 1) f (some (e attempt)) acc
      (delays ++ [c.calculate_delay (rand attempt) attempt]) (by omega)
      (fun i hi => by
        have hidx : attempt + 1 + i = attempt + (i + 1) := by omega
        rw [hidx]
        exact hfail (i + 1) (by omega))
    refine ⟨last', delays', ?_⟩
    rw [step, hrec]
    have hidx : attempt + 1 + k = attempt + (k + 1) := by omega
    have hfuel : f - k = f + 1 - (k + 1) := by omega
    rw [hidx, hfuel]

/-- Whenever at least one loop iteration remains, the factory is invoked
at least once more: the final invocation count strictly exceeds the
current attempt index. -/
lemma streamGo_calls_lower_bound (retryable : ε → Bool) (c : RetryConfig)
    (rand : ℕ → ℚ) (factory : ℕ → List α × GenEnd ε) :
    ∀ f attempt last acc delays, 1 ≤ f →
      attempt + 1 ≤
        (streamGo retryable c rand factory attempt f last acc delays).factoryCalls := by
  intro f
  induction f with
  | zero => omega
  | succ f ih =>
    intro attempt last acc delays _
    rcases h : factory attempt with ⟨items, ending⟩
    rcases ending with _ | e
    · simp [streamGo, h]
    · by_cases hr : retryable e = true
      · by_cases hi : items.isEmpty = true
        · rcases Nat.eq_zero_or_pos f with hf | hf
          · subst hf
            simp [streamGo, h, hr, hi]
          · have next := ih (attempt + 1) (some e) acc
              (delays ++ [c.calculate_delay (rand attempt) attempt]) hf
            simp only [streamGo, h, hr, hi, if_pos hf, if_true]
            omega
        · simp [streamGo, h, hr, hi]
      · simp [streamGo, h, hr]

/-! ## Claim C1: a retryable failure after the first yield is re-raised at
once with no further factory invocation; a retryable failure before any
yield, with attempts remaining, gets a fresh producer. -/

/-- C1: for every factory and retryable set wrapped by
`retry_async_generator` with a valid configuration: (a) if the first `k`
factory invocations fail retryably having yielded nothing and invocation
`k` (with attempts remaining) yields at least one item and then raises a
retryable exception, the consumer receives exactly those items followed by
that exception, and the factory is invoked exactly `k + 1` times — it is
never invoked again, regardless of remaining attempts; (b) if the first
invocation fails retryably before yielding anything and at least one
attempt remains, the factory is invoked again (at least twice in total). -/
theorem stream_midstream_failure_never_retried (retryable : ε → Bool)
    (c : RetryConfig) (rand : ℕ → ℚ) (factory : ℕ → List α × GenEnd ε)
    (hc : c.Valid) :
    (∀ (e : ℕ → ε) (k : ℕ) (items : List α) (ex : ε),
      (∀ i, retryable (e i) = true) →
      (∀ i, i < k → factory i = ([], .raise (e i))) →
      k < c.max_attempts →
      factory k = (items, .raise ex) → items ≠ [] → retryable ex = true →
      (retry_async_generator retryable c rand factory).yielded = items ∧
        (retry_async_generator retryable c rand factory).result = .error ex ∧
        (retry_async_generator retryable c rand factory).factoryCalls = k + 1) ∧
      (∀ e0 : ε, factory 0 = ([], .raise e0) → retryable e0 = true →
        2 ≤ c.max_attempts →
        2 ≤ (retry_async_generator retryable c rand factory).factoryCalls) := by
  constructor
  · intro e k items ex hret hfail hk hfk hne hrex
    obtain ⟨last', delays', hskip⟩ := streamGo_skip_empty_failures retryable c rand
      factory e hret k 0 c.max_attempts none [] [] hk
      (fun i hi => by simpa using hfail i hi)
    obtain ⟨g, hg⟩ : ∃ g, c.max_attempts - k = g + 1 := ⟨c.max_attempts - k - 1, by omega⟩
    have hne' : items.isEmpty = false := by
      cases items with
      | nil => exact absurd rfl hne
      | cons x xs => rfl
    have hk0 : (0 : ℕ) + k = k := by omega
    rw [retry_async_generator, hskip, hk0, hg]
    simp [streamGo, hfk, hrex, hne']
  · intro e0 h0 hr0 h2
    obtain ⟨f, hN⟩ : ∃ f, c.max_attempts = f + 1 := ⟨c.max_attempts - 1, by omega⟩
    have hf : 0 < f := by omega
    rw [retry_async_generator, hN]
    have step : streamGo retryable c rand factory 0 (f + 1) none [] []
        = streamGo retryable c rand factory 1 f (some e0) []
            ([] ++ [c.calculate_delay (rand 0) 0]) := by
      simp only [streamGo, h0, hr0, if_pos hf, if_true, List.isEmpty_nil]
    rw [step]
    exact streamGo_calls_lower_bound retryable c rand factory f 1 (some e0) []
      ([] ++ [c.calculate_delay (rand 0) 0]) hf

/-- Factory used by the C1 witness: the first producer fails retryably
before yielding; the second yields two items and then fails retryably. -/
def streamFactoryW : ℕ → List String × GenEnd ℕ
  | 0 => ([], .raise 5)
  | _ => (["a", "b"], .raise 7)

/-- Witness for C1 at a concrete factory: after the mid-stream failure on
the second attempt the items are delivered, the exception surfaces, and
the factory count stays at 2; and the empty first failure did lead to a
second factory invocation. -/
theorem stream_midstream_failure_never_retried_witness :
    ((retry_async_generator (fun _ => true) (RetryConfig.mk 3 1 30 2 false)
        (fun _ => 0) streamFactoryW).yielded = ["a", "b"] ∧
      (retry_async_generator (fun _ => true) (RetryConfig.mk 3 1 30 2 false)
        (fun _ => 0) streamFactoryW).result = .error 7 ∧
      (retry_async_generator (fun _ => true) (RetryConfig.mk 3 1 30 2 false)
        (fun _ => 0) streamFactoryW).factoryCalls = 1 + 1) ∧
      2 ≤ (retry_async_generator (fun _ => true) (RetryConfig.mk 3 1 30 2 false)
        (fun _ => 0) streamFactoryW).factoryCalls := by
  have h := stream_midstream_failure_never_retried (fun _ => true)
    (RetryConfig.mk 3 1 30 2 false) (fun _ => 0) streamFactoryW
    (by refine ⟨?_, ?_, ?_, ?_⟩ <;> norm_num [RetryConfig.Valid])
  exact ⟨h.1 (fun _ => 5) 1 ["a", "b"] 7 (fun _ => rfl)
      (fun i hi => by
        have hi0 : i = 0 := by omega
        subst hi0
        rfl)
      (by norm_num) rfl (by simp) rfl,
    h.2 5 rfl rfl (by norm_num)⟩

/-! ## Agent layer data model (`backend/app/agents/base.py`, lines 23-118)

SDK messages are modelled by the cases the orchestrator's `isinstance`
checks distinguish: `AssistantMessage` (a list of content blocks, of which
only `TextBlock`s are read), `ResultMessage`, and anything else.
Timestamps (`datetime.now()`) are abstract clock readings in `ℕ`. -/

/-- A content block of an `AssistantMessage`: a `TextBlock` or any other
block type (skipped by the orchestrator). -/
inductive Block where
  | text (s : String)
  | otherBlock
  deriving Repr, DecidableEq

/-- The `usage` dictionary of a `ResultMessage`; each counter may be
absent (`dict.get` with default 0). -/
structure Usage where
  input_tokens : Option ℤ := none
  output_tokens : Option ℤ := none
  deriving Repr, DecidableEq

/-- Embedding of the SDK `ResultMessage` fields the orchestrator reads. -/
structure ResultMessage where
  usage : Option Usage
  duration_ms : ℤ
  total_cost_usd : Option ℚ
  session_id : Option String
  deriving Repr, DecidableEq

/-- A message produced by the SDK stream. -/
inductive Message where
  | assistant (content : List Block)
  | result (r : ResultMessage)
  | otherMessage
  deriving Repr, DecidableEq

/-- Embedding of the `AgentMetadata` dataclass.  Field defaults mirror the
dataclass defaults; `started_at` is a clock reading supplied by the
caller (`datetime.now()` in the source). -/
structure AgentMetadata where
  agent_name : String
  model_used : String
  tokens_in : ℤ := 0
  tokens_out : ℤ := 0
  latency_ms : ℤ := 0
  cost_usd : ℚ := 0
  started_at : ℕ
  completed_at : Option ℕ := none
  session_id : Option String := none
  deriving Repr, DecidableEq

/-- Embedding of `AgentMetadata.from_result_message`: `usage = result.usage
or {}` followed by `usage.get(key, 0)` becomes nested `Option` defaults. -/
def AgentMetadata.from_result_message (agent_name model : String)
    (result : ResultMessage) (started_at now : ℕ) : AgentMetadata :=
  { agent_name := agent_name
    model_used := model
    tokens_in := (result.usage.map fun u => u.input_tokens.getD 0).getD 0
    tokens_out := (result.usage.map fun u => u.output_tokens.getD 0).getD 0
    latency_ms := result.duration_ms
    cost_usd := result.total_cost_usd.getD 0
    started_at := started_at
    completed_at := some now
    session_id := result.session_id }

/-- The hardcoded pricing table of `AgentMetadata.calculate_cost`
(input rate, output rate) per 1000 tokens, in USD; lookup by exact model
identifier. -/
def pricing (model : String) : Option (ℚ × ℚ) :=
  if model = "claude-opus-4-5-20251101" then some (15/1000, 75/1000)
  else if model = "claude-sonnet-4-5-20250929" then some (3/1000, 15/1000)
  else if model = "claude-3-5-haiku-20241022" then some (1/1000, 5/1000)
  else none

/-- Embedding of `AgentMetadata.calculate_cost`: mutating `self.cost_usd`
and returning it becomes returning the updated record together with the
returned value. -/
def AgentMetadata.calculate_cost (m : AgentMetadata) : AgentMetadata × ℚ :=
  match pricing m.model_used with
  | some rates =>
    let c := ((m.tokens_in : ℚ) / 1000) * rates.1 + ((m.tokens_out : ℚ) / 1000) * rates.2
    ({ m with cost_usd := c }, c)
  | none => (m, m.cost_usd)

/-! ## Claim C10: `calculate_cost` overwrites `cost_usd` only for the three
models of its pricing table and leaves every other field unchanged. -/

/-- C10: for every metadata value, if `model_used` is in the hardcoded
pricing table then `calculate_cost` overwrites `cost_usd` with
`(tokens_in/1000) * input_rate + (tokens_out/1000) * output_rate` and
returns that value; if `model_used` is none of the three table entries,
the metadata is returned unchanged together with the previously stored
`cost_usd`; and in every case all fields other than `cost_usd` are
unchanged. -/
theorem calculate_cost_pricing_table (m : AgentMetadata) :
    (∀ inp out, pricing m.model_used = some (inp, out) →
      m.calculate_cost =
        ({ m with cost_usd :=
            ((m.tokens_in : ℚ) / 1000) * inp + ((m.tokens_out : ℚ) / 1000) * out },
          ((m.tokens_in : ℚ) / 1000) * inp + ((m.tokens_out : ℚ) / 1000) * out)) ∧
      (m.model_used ≠ "claude-opus-4-5-20251101" →
        m.model_used ≠ "claude-sonnet-4-5-20250929" →
        m.model_used ≠ "claude-3-5-haiku-20241022" →
        m.calculate_cost = (m, m.cost_usd)) ∧
      (m.calculate_cost.1 =
        { m with cost_usd := m.calculate_cost.1.cost_usd }) := by
  refine ⟨?_, ?_, ?_⟩
  · intro inp out hp
    simp [AgentMetadata.calculate_cost, hp]
  · intro h1 h2 h3
    simp [AgentMetadata.calculate_cost, pricing, h1, h2, h3]
  · unfold AgentMetadata.calculate_cost
    rcases hp : pricing m.model_used with _ | rates
    · simp
    · simp

/-- Witness for C10 on a concrete metadata value priced by the table. -/
theorem calculate_cost_pricing_table_witness :
    (AgentMetadata.mk "a" "claude-3-5-haiku-20241022" 2000 1000 5 0 0 none
        none).calculate_cost =
      ({ AgentMetadata.mk "a" "claude-3-5-haiku-20241022" 2000 1000 5 0 0 none
          none with
            cost_usd := ((2000 : ℚ) / 1000) * (1/1000) + ((1000 : ℚ) / 1000) * (5/1000) },
        ((2000 : ℚ) / 1000) * (1/1000) + ((1000 : ℚ) / 1000) * (5/1000)) :=
  (calculate_cost_pricing_table
      (AgentMetadata.mk "a" "claude-3-5-haiku-20241022" 2000 1000 5 0 0 none none)).1
    (1/1000) (5/1000) (by simp [pricing])

/-! ## Error taxonomy and remote behaviour

`AgentErr` is the error surface of the agent layer: the two `AgentError`
subclasses plus the two `RuntimeError`s the module raises.  `RemoteEnd`
classifies how one interaction with the SDK ends, by the `except` clauses
the source distinguishes: success, an exception in
`(ConnectionError, TimeoutError, OSError)` (transport level), or any
other `Exception`. -/

/-- Errors raised by the agent layer.  `noActiveConversation` is the
`RuntimeError("No active conversation. ...")` precondition failure (the
spec's StatePreconditionFailure); `unexpectedState` is the defensive
`RuntimeError("Unexpected state ...")`. -/
inductive AgentErr (ε : Type) where
  | connectionError (e : ε)
  | queryError (e : ε)
  | noActiveConversation
  | unexpectedState
  deriving Repr, DecidableEq

/-- How one remote interaction ends: success, a transport-level exception
(`ConnectionError` / `TimeoutError` / `OSError`), or any other exception. -/
inductive RemoteEnd (ε : Type) where
  | done
  | transport (e : ε)
  | failure (e : ε)
  deriving Repr, DecidableEq

/-- Text accumulated from the `TextBlock`s of one assistant message
(`response_text += block.text`). -/
def textOfBlocks : List Block → String
  | [] => ""
  | .text s :: rest => s ++ textOfBlocks rest
  | .otherBlock :: rest => textOfBlocks rest

/-- Whether a message is a `ResultMessage` (the `isinstance` check of the
metadata branch). -/
def Message.isResult : Message → Bool
  | .result _ => true
  | _ => false

/-- One step of the message-processing loop shared by `_call_claude` and
`_continue_conversation`: accumulate the text of every `TextBlock` of an
`AssistantMessage`, or build metadata from a `ResultMessage`. -/
def collectStep (agent_name model : String) (started_at now : ℕ)
    (acc : String × Option AgentMetadata) (msg : Message) :
    String × Option AgentMetadata :=
  match msg with
  | .assistant content => (acc.1 ++ textOfBlocks content, acc.2)
  | .result r =>
    (acc.1, some (AgentMetadata.from_result_message agent_name model r started_at now))
  | .otherMessage => acc

/-- The full message-processing loop: response text and the metadata from
the (last) `ResultMessage`, if any arrived. -/
def collectResponse (agent_name model : String) (started_at now : ℕ)
    (msgs : List Message) : String × Option AgentMetadata :=
  msgs.foldl (collectStep agent_name model started_at now) ("", none)

/-- The chunks yielded by the streaming loops: one per `TextBlock` of each
`AssistantMessage`, in order. -/
def streamTexts (msgs : List Message) : List String :=
  msgs.foldl
    (fun acc msg =>
      match msg with
      | .assistant content =>
        acc ++ content.filterMap fun b =>
          match b with
          | .text s => some s
          | .otherBlock => none
      | _ => acc)
    []

/-! ## `_start_conversation` (`backend/app/agents/base.py`, lines 420-480)

`conn i` is how the `i`-th `ClaudeSDKClient.connect` call ends
(`RemoteEnd.done` meaning it succeeded).  The orchestrator's `_client`
handle is `Option ℕ`, `some i` identifying the `ClaudeSDKClient`
constructed on attempt `i`. -/

/-- Outcome of one run of `_start_conversation`: the final `_client`
handle, the result, and the backoff delays slept. -/
structure StartRun (ε : Type) where
  client : Option ℕ
  result : Except (AgentErr ε) Unit
  delays : List ℚ
  deriving Repr

/-- The `for attempt in range(self.retry_config.max_attempts)` loop of
`_start_conversation`.  Each iteration constructs a fresh client
(`self._client = ClaudeSDKClient(...)`) and connects it; every `except`
path first clears `self._client` to `None`, and both `except` paths as
well as the post-loop re-raise surface `AgentConnectionError`. -/
def startConvGo (c : RetryConfig) (rand : ℕ → ℚ) (conn : ℕ → RemoteEnd ε) :
    ℕ → ℕ → Option ε → Option ℕ → List ℚ → StartRun ε
  | _, 0, some e, client, delays => ⟨client, .error (.connectionError e), delays⟩
  | _, 0, none, client, delays => ⟨client, .ok (), delays⟩
  | attempt, f + 1, _, _, delays =>
    match conn attempt with
    | .done => ⟨some attempt, .ok (), delays⟩
    | .transport e =>
      if 0 < f then
        startConvGo c rand conn (attempt + 1) f (some e) none
          (delays ++ [c.calculate_delay (rand attempt) attempt])
      else ⟨none, .error (.connectionError e), delays⟩
    | .failure e => ⟨none, .error (.connectionError e), delays⟩

/-- Embedding of `_start_conversation` run on an orchestrator whose
current handle is `client0`. -/
def start_conversation (c : RetryConfig) (rand : ℕ → ℚ)
    (conn : ℕ → RemoteEnd ε) (client0 : Option ℕ) : StartRun ε :=
  startConvGo c rand conn 0 c.max_attempts none client0 []

/-- Invariant of the `_start_conversation` loop while iterations remain:
an error exit leaves the handle cleared and is always a wrapped
`AgentConnectionError`; a successful exit leaves the handle set. -/
lemma startConvGo_invariant (c : RetryConfig) (rand : ℕ → ℚ)
    (conn : ℕ → RemoteEnd ε) :
    ∀ f attempt last client delays, 1 ≤ f →
      (∀ err, (startConvGo c rand conn attempt f last client delays).result = .error err →
        (startConvGo c rand conn attempt f last client delays).client = none ∧
          ∃ e, err = .connectionError e) ∧
        ((startConvGo c rand conn attempt f last client delays).result = .ok () →
          ∃ a, (startConvGo c rand conn attempt f last client delays).client = some a) := by
  intro f
  induction f with
  | zero => omega
  | succ f ih =>
    intro attempt last client delays _
    rcases h : conn attempt with _ | e | e
    · constructor
      · intro err herr
        simp [startConvGo, h] at herr
      · intro _
        exact ⟨attempt, by simp [startConvGo, h]⟩
    · rcases Nat.eq_zero_or_pos f with hf | hf
      · subst hf
        constructor
        · intro err herr
          simp only [startConvGo] at herr
          simp only [h] at herr
          refine ⟨by simp [startConvGo, h], e, ?_⟩
          simpa using herr.symm
        · intro hok
          simp [startConvGo, h] at hok
      · have hrec := ih (attempt + 1) (some e) none
          (delays ++ [c.calculate_delay (rand attempt) attempt]) hf
        constructor
        · intro err herr
          simp only [startConvGo, h, if_pos hf] at herr ⊢
          exact hrec.1 err herr
        · intro hok
          simp only [startConvGo, h, if_pos hf] at hok ⊢
          exact hrec.2 hok
    · constructor
      · intro err herr
        simp only [startConvGo] at herr
        simp only [h] at herr
        refine ⟨by simp [startConvGo, h], e, ?_⟩
        simpa using herr.symm
      · intro hok
        simp [startConvGo, h] at hok

/-! ## Claim C2: a failed session open never retains a handle; a handle is
present only after a successful open. -/

/-- C2: for a valid configuration and any sequence of connect outcomes,
if `_start_conversation` terminates by raising (transport failure on the
last attempt, exhaustion, or a non-retryable failure) the orchestrator's
`_client` handle is cleared to `None`; the handle is set (Open) only when
the call returns successfully.  No partially constructed handle survives
a failed open, whatever handle the orchestrator held before the call. -/
theorem start_conversation_no_partial_handle (c : RetryConfig) (rand : ℕ → ℚ)
    (conn : ℕ → RemoteEnd ε) (client0 : Option ℕ) (hc : c.Valid) :
    (∀ err, (start_conversation c rand conn client0).result = .error err →
      (start_conversation c rand conn client0).client = none) ∧
      ((start_conversation c rand conn client0).result = .ok () →
        ∃ a, (start_conversation c rand conn client0).client = some a) := by
  have h := startConvGo_invariant c rand conn c.max_attempts 0 none client0 [] hc.1
  exact ⟨fun err herr => (h.1 err herr).1, h.2⟩

/-- Witness for C2: two transport failures under `max_attempts = 2`
exhaust the retries and leave the handle cleared. -/
theorem start_conversation_no_partial_handle_witness :
    (start_conversation (RetryConfig.mk 2 1 30 2 false) (fun _ => 0)
        (fun _ => (.transport 3 : RemoteEnd ℕ)) (some 99)).client = none :=
  (start_conversation_no_partial_handle (RetryConfig.mk 2 1 30 2 false) (fun _ => 0)
      (fun _ => (.transport 3 : RemoteEnd ℕ)) (some 99)
      (by refine ⟨?_, ?_, ?_, ?_⟩ <;> norm_num [RetryConfig.Valid])).1
    (.connectionError 3) rfl

/-! ## Claim C9: session open surfaces exactly one error type. -/

/-- C9: whatever the connect outcomes — transport-level failures, their
exhaustion, or any other application-level exception — every error raised
by `_start_conversation` is an `AgentConnectionError`; it never raises
`AgentQueryError` (both `except` arms and the post-loop re-raise wrap
into the connection-failure type). -/
theorem start_conversation_single_error_type (c : RetryConfig) (rand : ℕ → ℚ)
    (conn : ℕ → RemoteEnd ε) (client0 : Option ℕ) (hc : c.Valid) :
    ∀ err, (start_conversation c rand conn client0).result = .error err →
      ∃ e, err = AgentErr.connectionError e := by
  have h := startConvGo_invariant c rand conn c.max_attempts 0 none client0 [] hc.1
  exact fun err herr => (h.1 err herr).2

/-- Witness for C9: a non-transport failure on the first connect attempt
still surfaces as `AgentConnectionError`. -/
theorem start_conversation_single_error_type_witness :
    ∃ e, (AgentErr.connectionError 9 : AgentErr ℕ) = AgentErr.connectionError e :=
  start_conversation_single_error_type (RetryConfig.mk 3 1 30 2 false) (fun _ => 0)
    (fun _ => (.failure 9 : RemoteEnd ℕ)) none
    (by refine ⟨?_, ?_, ?_, ?_⟩ <;> norm_num [RetryConfig.Valid])
    (.connectionError 9) rfl

/-! ## `_continue_conversation` and `_stream_conversation`
(`backend/app/agents/base.py`, lines 482-577)

Both are single-attempt operations (no retry loop).  `turn` is the
behaviour of the remote exchange — the messages delivered by
`receive_response()` and how the exchange ends.  The second component of
each result counts the remote interactions performed, so that raising
before any contact with the remote service is observable. -/

/-- Embedding of `_continue_conversation`: the precondition check on the
handle, then one `query`/`receive_response` exchange; transport failures
become `AgentConnectionError`, everything else `AgentQueryError`; partial
text collected before a failure is discarded. -/
def continue_conversation (agent_name model : String) (client : Option ℕ)
    (turn : List Message × RemoteEnd ε) (started_at now : ℕ) :
    Except (AgentErr ε) (String × Option AgentMetadata) × ℕ :=
  match client with
  | none => (.error .noActiveConversation, 0)
  | some _ =>
    match turn with
    | (msgs, .done) => (.ok (collectResponse agent_name model started_at now msgs), 1)
    | (_, .transport e) => (.error (.connectionError e), 1)
    | (_, .failure e) => (.error (.queryError e), 1)

/-- Embedding of `_stream_conversation`: same precondition check, then one
exchange whose `TextBlock`s are yielded to the consumer as they arrive;
chunks already delivered stay delivered when the exchange then fails. -/
def stream_conversation (client : Option ℕ)
    (turn : List Message × RemoteEnd ε) :
    (List String × Except (AgentErr ε) Unit) × ℕ :=
  match client with
  | none => (([], .error .noActiveConversation), 0)
  | some _ =>
    match turn with
    | (msgs, .done) => ((streamTexts msgs, .ok ()), 1)
    | (msgs, .transport e) => ((streamTexts msgs, .error (.connectionError e)), 1)
    | (msgs, .failure e) => ((streamTexts msgs, .error (.queryError e)), 1)

/-! ## Claim C6: a session turn without an open handle fails with the
state-precondition error before any remote interaction. -/

/-- C6: on an orchestrator whose session handle is absent, both
`_continue_conversation` and `_stream_conversation` raise the
`RuntimeError("No active conversation. ...")` state-precondition failure
(the spec's StatePreconditionFailure) with zero remote interactions —
before any contact with the remote service.  Both operations are
single-attempt by construction, so the failure is never retried. -/
theorem session_turn_requires_open_session (agent_name model : String)
    (turn : List Message × RemoteEnd ε) (started_at now : ℕ) :
    continue_conversation agent_name model none turn started_at now
        = (.error .noActiveConversation, 0) ∧
      stream_conversation (ε := ε) none turn
        = (([], .error .noActiveConversation), 0) := by
  exact ⟨rfl, rfl⟩

/-! ## `_end_conversation` (`backend/app/agents/base.py`, lines 579-584)

`disconnect h` is how `ClaudeSDKClient.disconnect()` behaves on the
client identified by `h`; if it raises, the source propagates the
exception with the handle still set (the clearing assignment is only
reached after a successful disconnect). -/

/-- Embedding of `_end_conversation`: returns the orchestrator's handle
after the call together with the call's outcome. -/
def end_conversation (disconnect : ℕ → Except ε Unit) (client : Option ℕ) :
    Option ℕ × Except ε Unit :=
  match client with
  | none => (none, .ok ())
  | some h =>
    match disconnect h with
    | .ok () => (none, .ok ())
    | .error e => (some h, .error e)

/-! ## Claim C8: close session is an idempotent local no-op/clear. -/

/-- C8: `_end_conversation` is a no-op on an absent handle; on an open
handle it disconnects it and (when the disconnect completes) clears the
reference; running it twice from any starting state ends exactly as
running it once; and whenever it returns without raising the handle is
absent afterwards. -/
theorem end_conversation_idempotent (disconnect : ℕ → Except ε Unit)
    (client : Option ℕ) :
    (client = none → end_conversation disconnect client = (none, .ok ())) ∧
      (∀ h, client = some h → disconnect h = .ok () →
        end_conversation disconnect client = (none, .ok ())) ∧
      (end_conversation disconnect (end_conversation disconnect client).1
          = end_conversation disconnect client) ∧
      (∀ s, end_conversation disconnect client = (s, .ok ()) → s = none) := by
  refine ⟨?_, ?_, ?_, ?_⟩
  · rintro rfl
    rfl
  · rintro h rfl hd
    simp [end_conversation, hd]
  · rcases client with _ | h
    · rfl
    · rcases hd : disconnect h with _ | e
      · simp [end_conversation, hd]
      · simp [end_conversation, hd]
  · intro s hs
    rcases client with _ | h
    · simp [end_conversation] at hs
      exact hs.symm
    · rcases hd : disconnect h with e | u
      · simp [end_conversation, hd] at hs
      · simp [end_conversation, hd] at hs
        exact hs.symm

/-- Witness for C8: closing an open session with a completing disconnect
clears the handle, and a second close is a no-op with the same outcome. -/
theorem end_conversation_idempotent_witness :
    end_conversation (fun _ => (.ok () : Except ℕ Unit)) (some 0) = (none, .ok ()) ∧
      end_conversation (fun _ => (.ok () : Except ℕ Unit))
          (end_conversation (fun _ => (.ok () : Except ℕ Unit)) (some 0)).1
        = end_conversation (fun _ => (.ok () : Except ℕ Unit)) (some 0) :=
  ⟨(end_conversation_idempotent (fun _ => (.ok () : Except ℕ Unit)) (some 0)).2.1
      0 rfl rfl,
    (end_conversation_idempotent (fun _ => (.ok () : Except ℕ Unit)) (some 0)).2.2.1⟩

/-! ## `_call_claude` (`backend/app/agents/base.py`, lines 229-341)

`att i` is the behaviour of the SDK `query()` stream on the `i`-th
attempt: the messages it delivers and how it ends.  `clock i` is the
`datetime.now()` reading during attempt `i`.  Log records model the
`logger.warning` / `logger.error` calls of the loop. -/

/-- Diagnostic records emitted by `_call_claude`. -/
inductive LogRecord where
  | warnNoResultMessage
  | warnRetry (attempt : ℕ)
  | errorLog
  deriving Repr, DecidableEq

/-- Observable outcome of one `_call_claude` run. -/
structure CallRun (ε : Type) where
  result : Except (AgentErr ε) (String × AgentMetadata)
  calls : ℕ
  delays : List ℚ
  logs : List LogRecord
  deriving Repr

/-- The fallback metadata synthesized when the stream completes without a
`ResultMessage`: only name, model and timestamps are set, every usage
counter keeps its zero default. -/
def fallbackMetadata (agent_name used_model : String) (started_at now : ℕ) :
    AgentMetadata :=
  { agent_name := agent_name
    model_used := used_model
    started_at := started_at
    completed_at := some now }

/-- The `for attempt in range(self.retry_config.max_attempts)` loop of
`_call_claude`: collect the stream; on normal completion return the text
with the captured metadata, or with `fallbackMetadata` plus a warning if
no `ResultMessage` arrived; retry transport failures with backoff while
attempts remain, else wrap them as `AgentConnectionError`; wrap any other
failure as `AgentQueryError` at once. -/
def callClaudeGo (agent_name used_model : String) (c : RetryConfig)
    (rand : ℕ → ℚ) (att : ℕ → List Message × RemoteEnd ε) (clock : ℕ → ℕ) :
    ℕ → ℕ → Option ε → List ℚ → List LogRecord → CallRun ε
  | attempt, 0, some e, delays, logs =>
    ⟨.error (.connectionError e), attempt, delays, logs⟩
  | attempt, 0, none, delays, logs => ⟨.error .unexpectedState, attempt, delays, logs⟩
  | attempt, f + 1, _, delays, logs =>
    match att attempt with
    | (msgs, .done) =>
      match collectResponse agent_name used_model (clock attempt) (clock attempt) msgs with
      | (text, some md) => ⟨.ok (text, md), attempt + 1, delays, logs⟩
      | (text, none) =>
        ⟨.ok (text, fallbackMetadata agent_name used_model (clock attempt) (clock attempt)),
          attempt + 1, delays, logs ++ [.warnNoResultMessage]⟩
    | (_, .transport e) =>
      if 0 < f then
        callClaudeGo agent_name used_model c rand att clock (attempt + 1) f (some e)
          (delays ++ [c.calculate_delay (rand attempt) attempt])
          (logs ++ [.warnRetry attempt])
      else ⟨.error (.connectionError e), attempt + 1, delays, logs ++ [.errorLog]⟩
    | (_, .failure e) =>
      ⟨.error (.queryError e), attempt + 1, delays, logs ++ [.errorLog]⟩

/-- Embedding of one `_call_claude` invocation. -/
def call_claude (agent_name used_model : String) (c : RetryConfig) (rand : ℕ → ℚ)
    (att : ℕ → List Message × RemoteEnd ε) (clock : ℕ → ℕ) : CallRun ε :=
  callClaudeGo agent_name used_model c rand att clock 0 c.max_attempts none [] []

/-- If no message of the list is a `ResultMessage`, the processing loop
never sets the metadata slot. -/
lemma foldl_collectStep_no_result (agent_name model : String) (started_at now : ℕ) :
    ∀ (msgs : List Message) (acc : String × Option AgentMetadata),
      (∀ m ∈ msgs, m.isResult = false) →
      (msgs.foldl (collectStep agent_name model started_at now) acc).2 = acc.2 := by
  intro msgs
  induction msgs with
  | nil =>
    intro acc _
    rfl
  | cons m rest ih =>
    intro acc hall
    have hrest : ∀ x ∈ rest, x.isResult = false :=
      fun x hx => hall x (List.mem_cons_of_mem _ hx)
    rcases m with content | r | _
    · simpa [collectStep] using ih _ hrest
    · have := hall (.result r) (List.mem_cons_self _ _)
      simp [Message.isResult] at this
    · simpa [collectStep] using ih _ hrest

/-! ## Claim C7: a completed stream with no terminal `ResultMessage` still
returns the text with an all-zero fallback metadata and a warning. -/

/-- C7: if the first attempt's stream completes normally but delivers no
`ResultMessage`, `_call_claude` still returns successfully — not an
error — with the collected response text and a synthesized fallback
metadata whose usage counters (`tokens_in`, `tokens_out`, `latency_ms`,
`cost_usd`) are all zero, and the degraded-success warning is recorded. -/
theorem call_claude_fallback_metadata (agent_name used_model : String)
    (c : RetryConfig) (rand : ℕ → ℚ) (att : ℕ → List Message × RemoteEnd ε)
    (clock : ℕ → ℕ) (msgs : List Message) (hc : c.Valid)
    (h0 : att 0 = (msgs, .done)) (hnr : ∀ m ∈ msgs, m.isResult = false) :
    ∃ md,
      (call_claude agent_name used_model c rand att clock).result
          = .ok ((collectResponse agent_name used_model (clock 0) (clock 0) msgs).1, md) ∧
        md.tokens_in = 0 ∧ md.tokens_out = 0 ∧ md.latency_ms = 0 ∧ md.cost_usd = 0 ∧
        LogRecord.warnNoResultMessage ∈
          (call_claude agent_name used_model c rand att clock).logs := by
  obtain ⟨m, hm⟩ : ∃ m, c.max_attempts = m + 1 := ⟨c.max_attempts - 1, by
    have := hc.1
    omega⟩
  have hmeta : (collectResponse agent_name used_model (clock 0) (clock 0) msgs).2 = none :=
    foldl_collectStep_no_result agent_name used_model (clock 0) (clock 0) msgs _ hnr
  rcases hcr : collectResponse agent_name used_model (clock 0) (clock 0) msgs
    with ⟨text, mdq⟩
  rw [hcr] at hmeta
  simp only at hmeta
  subst hmeta
  refine ⟨fallbackMetadata agent_name used_model (clock 0) (clock 0), ?_, rfl, rfl, rfl,
    rfl, ?_⟩
  · simp [call_claude, hm, callClaudeGo, h0, hcr]
  · simp [call_claude, hm, callClaudeGo, h0, hcr]

/-- Stream behaviour used by the C7 witness: one assistant message with a
text block, no `ResultMessage`. -/
def callAttW : ℕ → List Message × RemoteEnd ℕ :=
  fun _ => ([Message.assistant [Block.text "hi"]], .done)

/-- Witness for C7 at a concrete stream with no terminal metadata. -/
theorem call_claude_fallback_metadata_witness :
    ∃ md,
      (call_claude "a" "m" (RetryConfig.mk 3 1 30 2 false) (fun _ => 0) callAttW
          (fun t => t)).result
          = .ok ((collectResponse "a" "m" 0 0 [Message.assistant [Block.text "hi"]]).1,
              md) ∧
        md.tokens_in = 0 ∧ md.tokens_out = 0 ∧ md.latency_ms = 0 ∧ md.cost_usd = 0 ∧
        LogRecord.warnNoResultMessage ∈
          (call_claude "a" "m" (RetryConfig.mk 3 1 30 2 false) (fun _ => 0) callAttW
            (fun t => t)).logs :=
  call_claude_fallback_metadata "a" "m" (RetryConfig.mk 3 1 30 2 false) (fun _ => 0)
    callAttW (fun t => t) [Message.assistant [Block.text "hi"]]
    (by refine ⟨?_, ?_, ?_, ?_⟩ <;> norm_num [RetryConfig.Valid]) rfl
    (by
      intro m hm
      rw [List.mem_singleton] at hm
      subst hm
      rfl)

end GroundedCV
